import Mathlib

/-
Verification development for the include-blob crates.

The embedding follows the two Rust source files:
  * the library crate (build-time preprocessing): make_includable_impl,
    process_file, write_archive, TargetInfo::from_build_script_vars,
    lib_prefix_and_suffix;
  * the proc-macro crate (compile-site reference): include_blob.

External collaborators (std DefaultHasher, the object crate writer API,
ar_archive_writer) are modelled at their API contract level, as the spec
directs: the hasher is an injected parameter invoked in the exact call
order of the source, the object writer API is modelled from its documented
semantics, and the archive encoder call is recorded as an effect step
carrying exactly the arguments the source passes.
-/

set_option autoImplicit false

namespace IncludeBlob

/-! ## Formatting of the symbol token

Models the std format string used by both crates, a hexadecimal
lowercase rendering zero-padded to width 16. -/

/-- Lowercase hexadecimal digits of a natural number, zero-padded on the
left to width 16, as produced by the format specifier for a 64-bit value. -/
def hexPad16 (n : Nat) : String :=
  let ds := Nat.toDigits 16 n
  ⟨List.replicate (16 - ds.length) '0' ++ ds⟩

/-! ## The hasher contract

Both crates build a std DefaultHasher, feed it the canonical path, then
the modification time, and take the 64-bit finish value. The hasher is
std library code shared bit-exactly by both crates, so it enters the
embedding as one injected parameter; each stage definition below records
its own call sequence against it. Paths are modelled as component lists. -/

/-- The state-transition view of the std hasher used at both call sites:
a fresh state, one step hashing a path, one step hashing a modification
time, and a 64-bit finish. -/
structure Hasher where
  H : Type
  new : H
  hash_path : H → List String → H
  hash_mtime : H → Nat → H
  finish : H → Nat

/-- Symbol token computed by process_file in the library crate:
DefaultHasher::new, path.hash, metadata.modified.hash, then
format "include_blob_{:016x}" of the 64-bit finish value. -/
def process_file_unique_name (d : Hasher) (path : List String) (mtime : Nat) : String :=
  "include_blob_" ++ hexPad16 (d.finish (d.hash_mtime (d.hash_path d.new path) mtime) % 2 ^ 64)

/-- Symbol token recomputed by include_blob in the proc-macro crate:
DefaultHasher::new, path.hash, metadata.modified.hash, then
format "include_blob_{:016x}" of the 64-bit finish value. -/
def include_blob_unique_name (d : Hasher) (path : List String) (mtime : Nat) : String :=
  "include_blob_" ++ hexPad16 (d.finish (d.hash_mtime (d.hash_path d.new path) mtime) % 2 ^ 64)

/-! ## Error taxonomy

Every fatal exit of the source (panics, propagated Result errors,
the unimplemented and unreachable arms) becomes a constructor. -/

/-- Fatal errors of the embedded code. -/
inductive Error where
  /-- Panic in make_includable_impl or include_blob when canonicalize fails. -/
  | couldNotFindFile (path : List String)
  /-- Propagated io error (fs metadata, fs read, file creation). -/
  | ioError (msg : String)
  /-- Panic in make_includable_impl on an entry that is neither file nor directory. -/
  | unsupportedFileType (path : List String)
  /-- Panic on an operating system outside the enumerated set. -/
  | unhandledOS (os : String)
  /-- Panic on an architecture outside the enumerated set. -/
  | unhandledArch (arch : String)
  /-- Panic on an endianness outside the enumerated set. -/
  | unhandledEndian (endian : String)
  /-- Propagated env var error, the OUT_DIR lookup. -/
  | envVarError (name : String)
  /-- The unimplemented arm of lib_prefix_and_suffix. -/
  | unsupportedPlatform
  /-- Failed assertion in include_blob that the metadata denotes a plain file. -/
  | assertIsFileFailed (path : List String)
deriving DecidableEq, Repr

/-- Classifier for the ConfigurationError class of the spec taxonomy:
unrecognized OS, architecture or endianness. -/
def Error.isConfigurationError : Error → Bool
  | .unhandledOS _ => true
  | .unhandledArch _ => true
  | .unhandledEndian _ => true
  | _ => false

/-- Classifier for the IOError class of the spec taxonomy: missing file or
failed filesystem operation. -/
def Error.isIOError : Error → Bool
  | .couldNotFindFile _ => true
  | .ioError _ => true
  | _ => false

/-! ## Platform resolution -/

/-- Object binary formats used by the source. -/
inductive BinaryFormat where
  | Elf
  | MachO
  | Coff
deriving DecidableEq, Repr

/-- Architectures enumerated by the source. -/
inductive Architecture where
  | I386
  | X86_64
  | Arm
  | Aarch64
  | Riscv32
  | Riscv64
  | Mips
  | Mips64
  | PowerPc
  | PowerPc64
deriving DecidableEq, Repr

/-- Endianness values enumerated by the source. -/
inductive Endianness where
  | Little
  | Big
deriving DecidableEq, Repr

/-- Archive container kinds of the ar_archive_writer collaborator. -/
inductive ArchiveKind where
  | Gnu
  | Gnu64
  | Bsd
  | Darwin
  | Darwin64
  | Coff
  | AixBig
deriving DecidableEq, Repr

/-- The archive kind the spec calls the import-library-style container:
the COFF archive layout used for Windows import libraries. Stated from
the spec wording for comparison against the kind the code selects. -/
def importLibraryStyleArchiveKind : ArchiveKind := ArchiveKind.Coff

/-- Resolved target information, the TargetInfo struct of the source. -/
structure TargetInfo where
  binfmt : BinaryFormat
  arch : Architecture
  endian : Endianness
  archive_kind : ArchiveKind
deriving DecidableEq, Repr

/-- The environment the build script reads: the cargo target vars, the
presence of the unix and windows family flags, and OUT_DIR. -/
structure Env where
  target_os : String
  target_arch : String
  target_endian : String
  cfg_unix : Bool
  cfg_windows : Bool
  out_dir : Option String
deriving DecidableEq, Repr

/-- The CARGO_CFG_TARGET_OS match arm of TargetInfo::from_build_script_vars. -/
def resolve_os : String → Except Error (BinaryFormat × ArchiveKind)
  | "macos" => .ok (BinaryFormat.MachO, ArchiveKind.Darwin64)
  | "ios" => .ok (BinaryFormat.MachO, ArchiveKind.Darwin64)
  | "windows" => .ok (BinaryFormat.Coff, ArchiveKind.Gnu)
  | "linux" => .ok (BinaryFormat.Elf, ArchiveKind.Gnu)
  | "android" => .ok (BinaryFormat.Elf, ArchiveKind.Gnu)
  | unk => .error (Error.unhandledOS unk)

/-- The CARGO_CFG_TARGET_ARCH match arm of TargetInfo::from_build_script_vars. -/
def resolve_arch : String → Except Error Architecture
  | "x86" => .ok Architecture.I386
  | "x86_64" => .ok Architecture.X86_64
  | "arm" => .ok Architecture.Arm
  | "aarch64" => .ok Architecture.Aarch64
  | "riscv32" => .ok Architecture.Riscv32
  | "riscv64" => .ok Architecture.Riscv64
  | "mips" => .ok Architecture.Mips
  | "mips64" => .ok Architecture.Mips64
  | "powerpc" => .ok Architecture.PowerPc
  | "powerpc64" => .ok Architecture.PowerPc64
  | unk => .error (Error.unhandledArch unk)

/-- The CARGO_CFG_TARGET_ENDIAN match arm of TargetInfo::from_build_script_vars;
the unreachable arm is still a fatal panic. -/
def resolve_endian : String → Except Error Endianness
  | "little" => .ok Endianness.Little
  | "big" => .ok Endianness.Big
  | unk => .error (Error.unhandledEndian unk)

/-- TargetInfo::from_build_script_vars: resolve OS, then architecture,
then endianness, each from the environment, failing fatally on any
unrecognized value. -/
def TargetInfo.from_build_script_vars (env : Env) : Except Error TargetInfo := do
  let (binfmt, archive_kind) ← resolve_os env.target_os
  let arch ← resolve_arch env.target_arch
  let endian ← resolve_endian env.target_endian
  pure ⟨binfmt, arch, endian, archive_kind⟩

/-- lib_prefix_and_suffix: chooses the archive filename prefix and suffix
from the presence of the unix and windows family flags alone, with a
fatal unimplemented exit when neither flag is set. -/
def lib_prefix_and_suffix (env : Env) : Except Error (String × String) :=
  if env.cfg_unix then .ok ("lib", ".a")
  else if env.cfg_windows then .ok ("", ".lib")
  else .error Error.unsupportedPlatform

/-- The OS strings of the enumerated match arms. -/
def validOS (s : String) : Bool :=
  s == "macos" || s == "ios" || s == "windows" || s == "linux" || s == "android"

/-- The architecture strings of the enumerated match arms. -/
def validArch (s : String) : Bool :=
  s == "x86" || s == "x86_64" || s == "arm" || s == "aarch64" || s == "riscv32" ||
  s == "riscv64" || s == "mips" || s == "mips64" || s == "powerpc" || s == "powerpc64"

/-- The endianness strings of the enumerated match arms. -/
def validEndian (s : String) : Bool :=
  s == "little" || s == "big"

/-! ## The object writer model

The object crate writer API as the source calls it: add_subsection
creates a fresh subsection of a standard section with the given name,
add_symbol appends a symbol, add_symbol_data appends the data to the
section at the aligned offset and points the symbol at it. The byte
encoder behind write_stream is an external collaborator treated as a
correct deterministic function of this in-memory value. -/

/-- Standard sections used by the source; only ReadOnlyData appears. -/
inductive StandardSection where
  | ReadOnlyData
deriving DecidableEq, Repr

/-- Symbol kinds used by the source; only Data appears. -/
inductive SymbolKind where
  | Data
deriving DecidableEq, Repr

/-- Symbol visibility scopes of the object crate. -/
inductive SymbolScope where
  | Unknown
  | Compilation
  | Linkage
  | Dynamic
deriving DecidableEq, Repr

/-- The section a symbol is defined relative to. -/
inductive SymbolSection where
  | Undefined
  | Section (id : Nat)
deriving DecidableEq, Repr

/-- A section of the in-memory object: the standard section it
subdivides, its subsection name, its data, and its alignment. -/
structure ObjSection where
  std : StandardSection
  name : String
  data : List Nat
  align : Nat
deriving DecidableEq, Repr

/-- A symbol of the in-memory object, with the fields the source sets. -/
structure ObjSymbol where
  name : String
  value : Nat
  size : Nat
  kind : SymbolKind
  scope : SymbolScope
  weak : Bool
  section' : SymbolSection
deriving DecidableEq, Repr

/-- A relocation record; the source never adds one, so the list of these
stays empty in every object it builds. -/
structure Relocation where
  offset : Nat
  symbol : Nat
deriving DecidableEq, Repr

/-- The in-memory object under construction. -/
structure Object where
  binfmt : BinaryFormat
  arch : Architecture
  endian : Endianness
  sections : List ObjSection
  symbols : List ObjSymbol
  relocations : List Relocation
deriving DecidableEq, Repr

/-- Object::new of the object crate: an empty object for the target. -/
def Object.new (binfmt : BinaryFormat) (arch : Architecture) (endian : Endianness) : Object :=
  ⟨binfmt, arch, endian, [], [], []⟩

/-- Round offset up to the given alignment. -/
def alignTo (offset align : Nat) : Nat :=
  (offset + align - 1) / align * align

/-- Append data to a section at the next offset of the given alignment,
zero-padding up to it, and raise the section alignment if needed;
returns the new section and the offset the data landed at. -/
def ObjSection.append_data (s : ObjSection) (data : List Nat) (align : Nat) :
    ObjSection × Nat :=
  let offset := alignTo s.data.length align
  (⟨s.std, s.name, s.data ++ List.replicate (offset - s.data.length) 0 ++ data,
    max s.align align⟩, offset)

/-- Object::add_subsection: append a fresh empty named subsection of the
standard section, alignment 1, returning its id. -/
def Object.add_subsection (o : Object) (std : StandardSection) (name : String) :
    Object × Nat :=
  (⟨o.binfmt, o.arch, o.endian, o.sections ++ [⟨std, name, [], 1⟩], o.symbols,
    o.relocations⟩, o.sections.length)

/-- Object::add_symbol: append the symbol, returning its id. -/
def Object.add_symbol (o : Object) (sym : ObjSymbol) : Object × Nat :=
  (⟨o.binfmt, o.arch, o.endian, o.sections, o.symbols ++ [sym], o.relocations⟩,
    o.symbols.length)

/-- Object::add_symbol_data: append the data to the section at the
aligned offset and set the symbol value to that offset, its size to the
data length, and its section to the target section. -/
def Object.add_symbol_data (o : Object) (symId secId : Nat) (data : List Nat)
    (align : Nat) : Object :=
  match o.sections.get? secId, o.symbols.get? symId with
  | some sec, some sym =>
    let (sec2, offset) := sec.append_data data align
    ⟨o.binfmt, o.arch, o.endian, o.sections.set secId sec2,
      o.symbols.set symId
        ⟨sym.name, offset, data.length, sym.kind, sym.scope, sym.weak,
          SymbolSection.Section secId⟩,
      o.relocations⟩
  | _, _ => o

/-- The object-building lines of process_file: a fresh object for the
target, one read-only-data subsection named by the symbol token, one
data symbol of Linkage scope over the whole blob, and the blob appended
through add_symbol_data with alignment 1. -/
def synthesize_object (info : TargetInfo) (unique_name : String) (content : List Nat) :
    Object :=
  let object := Object.new info.binfmt info.arch info.endian
  let (object, sectionId) := object.add_subsection StandardSection.ReadOnlyData unique_name
  let (object, sym) := object.add_symbol
    ⟨unique_name, 0, content.length, SymbolKind.Data, SymbolScope.Linkage, false,
      SymbolSection.Section sectionId⟩
  object.add_symbol_data sym sectionId content 1

/-! ## The archive writer -/

/-- A member handed to the archive encoder: the object value (the bytes
of which the external encoder derives deterministically), the member
name, and the fixed metadata fields. -/
structure NewArchiveMember where
  buf : Object
  member_name : String
  mtime : Nat
  uid : Nat
  gid : Nat
  perms : Nat
deriving DecidableEq, Repr

/-- An observable effect of the archive-writing step. execCommand models
a std process Command invocation of an external tool; the source never
performs one, which the theorems record. -/
inductive Step where
  | writeArchiveToStream (members : List NewArchiveMember) (kind : ArchiveKind)
      (thin : Bool) (is_ec : Bool)
  | execCommand (cmd : String) (args : List String)
deriving DecidableEq, Repr

/-- Count the external tool invocations in an effect trace. -/
def countExternalInvocations (steps : List Step) : Nat :=
  steps.countP fun s =>
    match s with
    | Step.execCommand _ _ => true
    | _ => false

/-- write_archive: build the single NewArchiveMember with zero mtime,
zero uid, zero gid and permissions 0o644, and hand it to
write_archive_to_stream with the resolved archive kind, thin and is_ec
both false. -/
def write_archive (target_info : TargetInfo) (object_file_name : String)
    (object_file_contents : Object) : List Step :=
  [Step.writeArchiveToStream
    [⟨object_file_contents, object_file_name, 0, 0, 0, 0o644⟩]
    target_info.archive_kind false false]

/-! ## The filesystem model

Paths are component lists resolved against a tree. An entry is a plain
file with content bytes and a modification time, a directory with named
entries in listing order, or some other entry kind (socket, device and
the like). Canonicalization succeeds exactly when the path resolves; a
directory entry obtained from a listing always resolves, so the
re-canonicalization the source performs on each recursive call is
collapsed into the node dispatch. Symlinks are outside the model. -/

mutual
/-- A filesystem node. -/
inductive FsTree where
  | file (content : List Nat) (mtime : Nat)
  | dir (entries : FsEntries)
  | other

/-- Named directory entries in listing order. -/
inductive FsEntries where
  | nil
  | cons (name : String) (child : FsTree) (rest : FsEntries)
end

/-- Look a name up among directory entries. -/
def FsEntries.lookup : FsEntries → String → Option FsTree
  | .nil, _ => none
  | .cons n c r, name => if n = name then some c else r.lookup name

/-- Resolve a component path against a tree; this models canonicalize,
which fails exactly on the paths that do not resolve. -/
def resolve : List String → FsTree → Option FsTree
  | [], t => some t
  | n :: rest, FsTree.dir entries =>
    match entries.lookup n with
    | some child => resolve rest child
    | none => none
  | _ :: _, _ => none

/-! ## The preprocessing pass -/

/-- Everything process_file produces for one file: the symbol token, the
output archive path, the synthesized object, the archive-writing effect
trace, and the emitted cargo directives. -/
structure ProcessResult where
  unique_name : String
  out_file_path : String
  object : Object
  steps : List Step
  directives : List String
deriving DecidableEq, Repr

/-- process_file: hash the canonical path and modification time into the
symbol token, read the content, build the output path from the platform
prefix and suffix under OUT_DIR, resolve the target, synthesize the
object, write the archive, and emit the link directives. The content is
supplied by the caller since the walk already holds the node; the fs
read of the source succeeds on exactly these nodes. -/
def process_file (env : Env) (d : Hasher) (path : List String) (content : List Nat)
    (mtime : Nat) : Except Error ProcessResult := do
  let unique_name := process_file_unique_name d path mtime
  let (pre, post) ← lib_prefix_and_suffix env
  let out_dir ← match env.out_dir with
    | some s => Except.ok s
    | none => Except.error (Error.envVarError "OUT_DIR")
  let out_file_path := out_dir ++ "/" ++ pre ++ unique_name ++ post
  let info ← TargetInfo.from_build_script_vars env
  let object := synthesize_object info unique_name content
  let object_file_name := unique_name ++ ".o"
  let steps := write_archive info object_file_name object
  pure ⟨unique_name, out_file_path, object, steps,
    ["cargo:rustc-link-lib=static=" ++ unique_name,
     "cargo:rustc-link-search=native=" ++ out_dir]⟩

mutual
/-- The node dispatch of make_includable_impl: process a plain file,
recurse over a directory, and fail fatally on any other entry kind.
Returns the per-file results created before the pass stopped, and the
first fatal error if one occurred. -/
def walk (env : Env) (d : Hasher) (path : List String) :
    FsTree → List ProcessResult × Option Error
  | .file content mtime =>
    match process_file env d path content mtime with
    | .ok r => ([r], none)
    | .error e => ([], some e)
  | .dir entries => walkEntries env d path entries
  | .other => ([], some (Error.unsupportedFileType path))

/-- The directory loop of make_includable_impl: process entries in
listing order, stopping at the first error. -/
def walkEntries (env : Env) (d : Hasher) (path : List String) :
    FsEntries → List ProcessResult × Option Error
  | .nil => ([], none)
  | .cons name child rest =>
    match walk env d (path ++ [name]) child with
    | (files, some e) => (files, some e)
    | (files, none) =>
      let (files2, err2) := walkEntries env d path rest
      (files ++ files2, err2)
end

/-- make_includable_impl: canonicalize the root path, failing fatally
before anything is created when it does not resolve, then dispatch on
the node kind. -/
def make_includable_impl (root : FsTree) (env : Env) (d : Hasher) (path : List String) :
    List ProcessResult × Option Error :=
  match resolve path root with
  | none => ([], some (Error.couldNotFindFile path))
  | some t => walk env d path t

/-! ## The compile-site reference -/

/-- What the include_blob expansion emits: the link name of the extern
static and the length of the byte-array type. -/
structure Expansion where
  link_name : String
  len : Nat
deriving DecidableEq, Repr

/-- include_blob: resolve the literal against the manifest directory,
failing fatally when canonicalize fails, assert the metadata denotes a
plain file, take the byte length from the metadata, recompute the
symbol token, and emit the extern static reference of array type with
that length. -/
def include_blob (root : FsTree) (d : Hasher) (manifest_dir : List String)
    (lit : List String) : Except Error Expansion :=
  let path := manifest_dir ++ lit
  match resolve path root with
  | none => .error (Error.couldNotFindFile path)
  | some (FsTree.file content mtime) =>
    .ok ⟨include_blob_unique_name d path mtime, content.length⟩
  | some _ => .error (Error.assertIsFileFailed path)

/-! ## Structural measures over the filesystem, for the statements -/

mutual
/-- Number of plain files in a subtree. -/
def countFiles : FsTree → Nat
  | .file _ _ => 1
  | .dir es => countFilesEntries es
  | .other => 0

/-- Number of plain files below a list of entries. -/
def countFilesEntries : FsEntries → Nat
  | .nil => 0
  | .cons _ c r => countFiles c + countFilesEntries r
end

mutual
/-- Whether a subtree contains an entry that is neither a plain file nor
a directory. -/
def hasOther : FsTree → Bool
  | .file _ _ => false
  | .dir es => hasOtherEntries es
  | .other => true

/-- Whether any entry of a list contains such an entry. -/
def hasOtherEntries : FsEntries → Bool
  | .nil => false
  | .cons _ c r => hasOther c || hasOtherEntries r
end

/-- A plain file discovered by the walk: its canonical path, content and
modification time. -/
structure Discovered where
  path : List String
  content : List Nat
  mtime : Nat
deriving DecidableEq, Repr

mutual
/-- The plain files of a subtree in walk order, with their paths. -/
def discovered (path : List String) : FsTree → List Discovered
  | .file c m => [⟨path, c, m⟩]
  | .dir es => discoveredEntries path es
  | .other => []

/-- The plain files below a list of entries in walk order. -/
def discoveredEntries (path : List String) : FsEntries → List Discovered
  | .nil => []
  | .cons n c r => discovered (path ++ [n]) c ++ discoveredEntries path r
end

/-- An environment on which the per-file pipeline cannot fail: the
family flags yield a prefix and suffix, OUT_DIR is present, and the
target resolves. -/
def goodEnv (env : Env) : Bool :=
  match lib_prefix_and_suffix env, env.out_dir, TargetInfo.from_build_script_vars env with
  | .ok _, some _, .ok _ => true
  | _, _, _ => false

/-- The result process_file returns on a good environment, written as a
function of the inputs so the walk output can be stated as a map. The
fallback arm keeps the symbol token so the token map is unconditional;
it is unreachable on a good environment. -/
def mkResult (env : Env) (d : Hasher) (path : List String) (content : List Nat)
    (mtime : Nat) : ProcessResult :=
  let unique_name := process_file_unique_name d path mtime
  match lib_prefix_and_suffix env, env.out_dir, TargetInfo.from_build_script_vars env with
  | .ok (pre, post), some out_dir, .ok info =>
    ⟨unique_name, out_dir ++ "/" ++ pre ++ unique_name ++ post,
      synthesize_object info unique_name content,
      write_archive info (unique_name ++ ".o") (synthesize_object info unique_name content),
      ["cargo:rustc-link-lib=static=" ++ unique_name,
       "cargo:rustc-link-search=native=" ++ out_dir]⟩
  | _, _, _ =>
    ⟨unique_name, "", Object.new BinaryFormat.Elf Architecture.I386 Endianness.Little,
      [], []⟩

/-! ## Helper lemmas on platform resolution -/

theorem resolve_os_error_config (os : String) (e : Error)
    (h : resolve_os os = Except.error e) : e.isConfigurationError = true := by
  unfold resolve_os at h
  split at h
  all_goals first
    | exact Except.noConfusion h
    | (injection h with h; subst h; rfl)

theorem resolve_arch_error_config (s : String) (e : Error)
    (h : resolve_arch s = Except.error e) : e.isConfigurationError = true := by
  unfold resolve_arch at h
  split at h
  all_goals first
    | exact Except.noConfusion h
    | (injection h with h; subst h; rfl)

theorem resolve_endian_error_config (s : String) (e : Error)
    (h : resolve_endian s = Except.error e) : e.isConfigurationError = true := by
  unfold resolve_endian at h
  split at h
  all_goals first
    | exact Except.noConfusion h
    | (injection h with h; subst h; rfl)

theorem resolve_os_ok_valid (os : String) (p : BinaryFormat × ArchiveKind)
    (h : resolve_os os = Except.ok p) : validOS os = true := by
  unfold resolve_os at h
  split at h <;> simp_all [validOS]

theorem resolve_arch_ok_valid (s : String) (a : Architecture)
    (h : resolve_arch s = Except.ok a) : validArch s = true := by
  unfold resolve_arch at h
  split at h <;> simp_all [validArch]

theorem resolve_endian_ok_valid (s : String) (en : Endianness)
    (h : resolve_endian s = Except.ok en) : validEndian s = true := by
  unfold resolve_endian at h
  split at h <;> simp_all [validEndian]

theorem resolve_arch_valid_ok (s : String) (h : validArch s = true) :
    ∃ a, resolve_arch s = Except.ok a := by
  simp only [validArch, Bool.or_eq_true, beq_iff_eq] at h
  rcases h with ((((((((h | h) | h) | h) | h) | h) | h) | h) | h) | h <;> subst h <;>
    exact ⟨_, rfl⟩

theorem resolve_endian_valid_ok (s : String) (h : validEndian s = true) :
    ∃ en, resolve_endian s = Except.ok en := by
  simp only [validEndian, Bool.or_eq_true, beq_iff_eq] at h
  rcases h with h | h <;> subst h <;> exact ⟨_, rfl⟩

/-! ## Helper lemmas on the per-file pipeline -/

theorem process_file_eq (env : Env) (d : Hasher) (path : List String)
    (content : List Nat) (mtime : Nat) (hg : goodEnv env = true) :
    process_file env d path content mtime = Except.ok (mkResult env d path content mtime) := by
  unfold goodEnv at hg
  split at hg
  · rename_i pp od info hpp hod hinfo
    obtain ⟨pre, post⟩ := pp
    unfold process_file mkResult
    rw [hpp, hod, hinfo]
    rfl
  · exact absurd hg (by simp)

theorem process_file_good (env : Env) (d : Hasher) (path : List String)
    (content : List Nat) (mtime : Nat) (r : ProcessResult)
    (hr : process_file env d path content mtime = Except.ok r) :
    goodEnv env = true := by
  unfold process_file at hr
  unfold goodEnv
  cases hpp : lib_prefix_and_suffix env with
  | error e =>
    rw [hpp] at hr
    exact Except.noConfusion hr
  | ok pp =>
    obtain ⟨pre, post⟩ := pp
    rw [hpp] at hr
    cases hod : env.out_dir with
    | none =>
      rw [hod] at hr
      exact Except.noConfusion hr
    | some od =>
      rw [hod] at hr
      cases hinfo : TargetInfo.from_build_script_vars env with
      | error e =>
        rw [hinfo] at hr
        exact Except.noConfusion hr
      | ok info => rfl

theorem process_file_ok_mkResult (env : Env) (d : Hasher) (path : List String)
    (content : List Nat) (mtime : Nat) (r : ProcessResult)
    (hr : process_file env d path content mtime = Except.ok r) :
    r = mkResult env d path content mtime := by
  have hg := process_file_good env d path content mtime r hr
  rw [process_file_eq env d path content mtime hg] at hr
  exact (Except.ok.inj hr).symm

theorem mkResult_unique_name (env : Env) (d : Hasher) (path : List String)
    (content : List Nat) (mtime : Nat) :
    (mkResult env d path content mtime).unique_name = process_file_unique_name d path mtime := by
  unfold mkResult
  split <;> rfl

/-! ## Helper lemmas on the directory walk -/

mutual
theorem walk_clean (env : Env) (d : Hasher) (hg : goodEnv env = true) :
    ∀ (path : List String) (t : FsTree), hasOther t = false →
    walk env d path t =
      ((discovered path t).map fun f => mkResult env d f.path f.content f.mtime, none)
  | path, .file c m, _ => by
    simp only [walk, discovered, process_file_eq env d path c m hg, List.map]
  | path, .dir es, h => by
    simp only [walk, discovered]
    exact walkEntries_clean env d hg path es (by simpa [hasOther] using h)
  | path, .other, h => by simp [hasOther] at h

theorem walkEntries_clean (env : Env) (d : Hasher) (hg : goodEnv env = true) :
    ∀ (path : List String) (es : FsEntries), hasOtherEntries es = false →
    walkEntries env d path es =
      ((discoveredEntries path es).map fun f => mkResult env d f.path f.content f.mtime, none)
  | _, .nil, _ => rfl
  | path, .cons n c r, h => by
    have hcr : hasOther c = false ∧ hasOtherEntries r = false := by
      simpa [hasOtherEntries, Bool.or_eq_false_iff] using h
    rw [walkEntries, walk_clean env d hg (path ++ [n]) c hcr.1,
      walkEntries_clean env d hg path r hcr.2]
    simp [discoveredEntries]
end

mutual
theorem walk_other (env : Env) (d : Hasher) (hg : goodEnv env = true) :
    ∀ (path : List String) (t : FsTree), hasOther t = true →
    ∃ p, (walk env d path t).2 = some (Error.unsupportedFileType p)
  | _, .file _ _, h => by simp [hasOther] at h
  | path, .dir es, h => by
    simp only [walk]
    exact walkEntries_other env d hg path es (by simpa [hasOther] using h)
  | path, .other, _ => ⟨path, by simp [walk]⟩

theorem walkEntries_other (env : Env) (d : Hasher) (hg : goodEnv env = true) :
    ∀ (path : List String) (es : FsEntries), hasOtherEntries es = true →
    ∃ p, (walkEntries env d path es).2 = some (Error.unsupportedFileType p)
  | _, .nil, h => by simp [hasOtherEntries] at h
  | path, .cons n c r, h => by
    by_cases hc : hasOther c = true
    · obtain ⟨p, hp⟩ := walk_other env d hg (path ++ [n]) c hc
      refine ⟨p, ?_⟩
      rcases hw : walk env d (path ++ [n]) c with ⟨files, err⟩
      rw [hw] at hp
      simp only at hp
      subst hp
      simp [walkEntries, hw]
    · have hc' : hasOther c = false := by simpa using hc
      have hrr : hasOtherEntries r = true := by
        rcases (by simpa [hasOtherEntries, Bool.or_eq_true] using h : hasOther c = true ∨ hasOtherEntries r = true) with h' | h'
        · exact absurd h' (by simp [hc'])
        · exact h'
      obtain ⟨p, hp⟩ := walkEntries_other env d hg path r hrr
      refine ⟨p, ?_⟩
      rw [walkEntries, walk_clean env d hg (path ++ [n]) c hc']
      rcases hw2 : walkEntries env d path r with ⟨files2, err2⟩
      rw [hw2] at hp
      simp only at hp
      simp [hp]
end

mutual
theorem discovered_length : ∀ (path : List String) (t : FsTree),
    (discovered path t).length = countFiles t
  | _, .file _ _ => rfl
  | path, .dir es => by
    simp only [discovered, countFiles]
    exact discoveredEntries_length path es
  | _, .other => rfl

theorem discoveredEntries_length : ∀ (path : List String) (es : FsEntries),
    (discoveredEntries path es).length = countFilesEntries es
  | _, .nil => rfl
  | path, .cons n c r => by
    simp only [discoveredEntries, countFilesEntries, List.length_append,
      discovered_length (path ++ [n]) c, discoveredEntries_length path r]
end

/-! ## Concrete fixtures for the witnesses -/

/-- A transparent hasher for concrete evaluations: the token is the
modification time rendered in hexadecimal. -/
def testHasher : Hasher :=
  ⟨Nat, 0, fun h _ => h, fun _ m => m, fun h => h⟩

/-- A resolvable Linux environment. -/
def linuxTestEnv : Env := ⟨"linux", "x86_64", "little", true, false, some "out"⟩

/-- A directory with two plain files nested across subdirectories. -/
def testRoot : FsTree :=
  FsTree.dir (FsEntries.cons "sub"
    (FsTree.dir (FsEntries.cons "a.bin" (FsTree.file [72, 105] 1) FsEntries.nil))
    (FsEntries.cons "b.bin" (FsTree.file [33] 2) FsEntries.nil))

/-- The resolved macOS target of the source. -/
def macInfo : TargetInfo :=
  ⟨BinaryFormat.MachO, Architecture.Aarch64, Endianness.Little, ArchiveKind.Darwin64⟩

/-- A concrete object synthesized for the macOS target. -/
def macTestObject : Object :=
  synthesize_object macInfo "include_blob_0000000000000001" [72]

/-! ## The claims -/

/-- C1: the preprocessing stage (process_file in the library crate) and
the compile-site stage (include_blob in the proc-macro crate) compute
the symbol-identity token by the same pure function of the canonical
path and modification time: the shared std hasher is invoked in the same
order on the same inputs and the 64-bit result is formatted with the
same fixed-width hexadecimal format, so the two stages, run as
independent processes with no communication, produce identical tokens. -/
theorem c1_symbol_token_agreement (d : Hasher) (path : List String) (mtime : Nat) :
    process_file_unique_name d path mtime = include_blob_unique_name d path mtime := rfl

/-- C3: for every blob and symbol name the synthesized object holds
exactly one read-only-data subsection named after the symbol, with the
blob bytes verbatim at offset zero and one-byte alignment, and exactly
one data symbol with that name of Linkage (linkage-unit visible,
non-local) scope, value zero and size the blob length, pointing into
that section, with no relocations. -/
theorem c3_minimal_object (info : TargetInfo) (name : String) (content : List Nat) :
    (synthesize_object info name content).sections =
      [⟨StandardSection.ReadOnlyData, name, content, 1⟩] ∧
    (synthesize_object info name content).symbols =
      [⟨name, 0, content.length, SymbolKind.Data, SymbolScope.Linkage, false,
        SymbolSection.Section 0⟩] ∧
    (synthesize_object info name content).relocations = [] := by
  refine ⟨?_, ?_, ?_⟩ <;>
    simp [synthesize_object, Object.new, Object.add_subsection, Object.add_symbol,
      Object.add_symbol_data, ObjSection.append_data, alignTo]

/-- C5: platform resolution is a total enumeration with no silent
default: whenever the OS, architecture or endianness descriptor falls
outside the enumerated sets, resolution fails fatally with a
configuration-class error instead of choosing a default. -/
theorem c5_no_silent_default (env : Env)
    (h : validOS env.target_os = false ∨ validArch env.target_arch = false ∨
      validEndian env.target_endian = false) :
    ∃ e, TargetInfo.from_build_script_vars env = Except.error e ∧
      e.isConfigurationError = true := by
  cases hos : resolve_os env.target_os with
  | error e =>
    refine ⟨e, ?_, resolve_os_error_config _ _ hos⟩
    unfold TargetInfo.from_build_script_vars
    rw [hos]
    rfl
  | ok p =>
    obtain ⟨binfmt, kind⟩ := p
    have hvos := resolve_os_ok_valid _ _ hos
    cases harch : resolve_arch env.target_arch with
    | error e =>
      refine ⟨e, ?_, resolve_arch_error_config _ _ harch⟩
      unfold TargetInfo.from_build_script_vars
      rw [hos, harch]
      rfl
    | ok a =>
      have hva := resolve_arch_ok_valid _ _ harch
      cases hend : resolve_endian env.target_endian with
      | error e =>
        refine ⟨e, ?_, resolve_endian_error_config _ _ hend⟩
        unfold TargetInfo.from_build_script_vars
        rw [hos, harch, hend]
        rfl
      | ok en =>
        have hve := resolve_endian_ok_valid _ _ hend
        rcases h with h | h | h <;> simp_all

/-- Witness for C5 at a concrete unrecognized operating system. -/
theorem c5_no_silent_default_witness :
    ∃ e, TargetInfo.from_build_script_vars ⟨"plan9", "x86_64", "little", true, false, some "out"⟩ =
      Except.error e ∧ e.isConfigurationError = true :=
  c5_no_silent_default ⟨"plan9", "x86_64", "little", true, false, some "out"⟩ (Or.inl rfl)

/-- C10: the archive filename prefix and suffix are chosen solely by the
unix-family versus windows-family flags, independently of the
OS-to-format mapping: two environments agreeing on the two flags agree
on the result whatever their OS strings; any unix-family environment
(macOS and iOS included, since cargo sets the unix flag there) gets
prefix lib and suffix .a; any windows-family environment gets the empty
prefix and .lib; an environment in neither family fails fatally at this
step even when its OS is one the format mapping accepts. -/
theorem c10_prefix_suffix_family (e1 e2 : Env)
    (hu : e1.cfg_unix = e2.cfg_unix) (hw : e1.cfg_windows = e2.cfg_windows) :
    lib_prefix_and_suffix e1 = lib_prefix_and_suffix e2 ∧
    (e1.cfg_unix = true → lib_prefix_and_suffix e1 = Except.ok ("lib", ".a")) ∧
    (e1.cfg_unix = false → e1.cfg_windows = true →
      lib_prefix_and_suffix e1 = Except.ok ("", ".lib")) ∧
    (e1.cfg_unix = false → e1.cfg_windows = false →
      lib_prefix_and_suffix e1 = Except.error Error.unsupportedPlatform) := by
  refine ⟨?_, ?_, ?_, ?_⟩
  · unfold lib_prefix_and_suffix
    rw [hu, hw]
  · intro h
    simp [lib_prefix_and_suffix, h]
  · intro h1 h2
    simp [lib_prefix_and_suffix, h1, h2]
  · intro h1 h2
    simp [lib_prefix_and_suffix, h1, h2]

/-- Witness for C10: a macOS environment (unix family) and a Linux
environment with the same family flags agree, and the macOS environment
gets prefix lib and suffix .a. -/
theorem c10_prefix_suffix_family_witness :
    lib_prefix_and_suffix ⟨"macos", "aarch64", "little", true, false, some "out"⟩ =
      lib_prefix_and_suffix ⟨"linux", "arm", "big", true, false, none⟩ ∧
    lib_prefix_and_suffix ⟨"macos", "aarch64", "little", true, false, some "out"⟩ =
      Except.ok ("lib", ".a") :=
  ⟨(c10_prefix_suffix_family ⟨"macos", "aarch64", "little", true, false, some "out"⟩
      ⟨"linux", "arm", "big", true, false, none⟩ rfl rfl).1,
   (c10_prefix_suffix_family ⟨"macos", "aarch64", "little", true, false, some "out"⟩
      ⟨"linux", "arm", "big", true, false, none⟩ rfl rfl).2.1 rfl⟩

/-- C2 counterexample: on the resolved macOS target the archive-writing
step is the single in-process encoder call on the Darwin64 kind and
contains zero external command invocations, contrary to the claimed
mandatory synchronous ranlib-equivalent invocation. -/
theorem c2_counterexample :
    TargetInfo.from_build_script_vars ⟨"macos", "aarch64", "little", true, false, some "out"⟩ =
      Except.ok macInfo ∧
    write_archive macInfo "include_blob_0000000000000001.o" macTestObject =
      [Step.writeArchiveToStream
        [⟨macTestObject, "include_blob_0000000000000001.o", 0, 0, 0, 0o644⟩]
        ArchiveKind.Darwin64 false false] ∧
    countExternalInvocations
      (write_archive macInfo "include_blob_0000000000000001.o" macTestObject) = 0 :=
  ⟨rfl, rfl, rfl⟩

/-- C2 amended: no external archive indexing exists: the archive-writing
step invokes no external command on any target, and an Apple OS
(macos or ios) resolves to the in-process Darwin64 archive kind handled
by the encoder itself; in particular no external-tool failure can occur. -/
theorem c2_no_external_indexing (env : Env) (info : TargetInfo) (name : String)
    (obj : Object)
    (hos : env.target_os = "macos" ∨ env.target_os = "ios")
    (hta : validArch env.target_arch = true)
    (hte : validEndian env.target_endian = true) :
    countExternalInvocations (write_archive info name obj) = 0 ∧
    ∃ arch endian, TargetInfo.from_build_script_vars env =
      Except.ok ⟨BinaryFormat.MachO, arch, endian, ArchiveKind.Darwin64⟩ := by
  refine ⟨rfl, ?_⟩
  have hosres : resolve_os env.target_os =
      Except.ok (BinaryFormat.MachO, ArchiveKind.Darwin64) := by
    rcases hos with h | h <;> rw [h] <;> rfl
  obtain ⟨a, ha⟩ := resolve_arch_valid_ok _ hta
  obtain ⟨en, he⟩ := resolve_endian_valid_ok _ hte
  refine ⟨a, en, ?_⟩
  unfold TargetInfo.from_build_script_vars
  rw [hosres, ha, he]
  rfl

/-- Witness for the amended C2 on a concrete iOS environment. -/
theorem c2_no_external_indexing_witness :
    countExternalInvocations (write_archive macInfo "m.o" macTestObject) = 0 ∧
    ∃ arch endian,
      TargetInfo.from_build_script_vars ⟨"ios", "aarch64", "little", true, false, some "out"⟩ =
        Except.ok ⟨BinaryFormat.MachO, arch, endian, ArchiveKind.Darwin64⟩ :=
  c2_no_external_indexing ⟨"ios", "aarch64", "little", true, false, some "out"⟩
    macInfo "m.o" macTestObject (Or.inr rfl) rfl rfl

/-- C6 counterexample: on a Windows environment the resolved archive
container kind is the GNU layout, not the import-library-style COFF
archive kind. -/
theorem c6_counterexample :
    TargetInfo.from_build_script_vars ⟨"windows", "x86_64", "little", false, true, some "out"⟩ =
      Except.ok ⟨BinaryFormat.Coff, Architecture.X86_64, Endianness.Little, ArchiveKind.Gnu⟩ ∧
    ArchiveKind.Gnu ≠ importLibraryStyleArchiveKind :=
  ⟨rfl, by decide⟩

/-- C6 amended: a Windows target resolves to the COFF object format with
the GNU-style archive kind, and its filename convention is the empty
prefix with the .lib suffix. -/
theorem c6_windows_resolution (env : Env)
    (hos : env.target_os = "windows")
    (hta : validArch env.target_arch = true)
    (hte : validEndian env.target_endian = true)
    (hu : env.cfg_unix = false) (hw : env.cfg_windows = true) :
    (∃ arch endian, TargetInfo.from_build_script_vars env =
      Except.ok ⟨BinaryFormat.Coff, arch, endian, ArchiveKind.Gnu⟩) ∧
    lib_prefix_and_suffix env = Except.ok ("", ".lib") := by
  constructor
  · have hosres : resolve_os env.target_os =
        Except.ok (BinaryFormat.Coff, ArchiveKind.Gnu) := by
      rw [hos]
      rfl
    obtain ⟨a, ha⟩ := resolve_arch_valid_ok _ hta
    obtain ⟨en, he⟩ := resolve_endian_valid_ok _ hte
    refine ⟨a, en, ?_⟩
    unfold TargetInfo.from_build_script_vars
    rw [hosres, ha, he]
    rfl
  · simp [lib_prefix_and_suffix, hu, hw]

/-- Witness for the amended C6 on a concrete Windows environment. -/
theorem c6_windows_resolution_witness :
    (∃ arch endian,
      TargetInfo.from_build_script_vars ⟨"windows", "arm", "little", false, true, some "out"⟩ =
        Except.ok ⟨BinaryFormat.Coff, arch, endian, ArchiveKind.Gnu⟩) ∧
    lib_prefix_and_suffix ⟨"windows", "arm", "little", false, true, some "out"⟩ =
      Except.ok ("", ".lib") :=
  c6_windows_resolution ⟨"windows", "arm", "little", false, true, some "out"⟩
    rfl rfl rfl rfl rfl

/-- C4: a successful process_file hands the archive encoder exactly one
member, named by the symbol token followed by .o, with zero mtime, zero
uid, zero gid and the standard permission bits, in a single encoder
call on the resolved archive kind; and any second run on the unchanged
inputs returns the identical result, so the archive output of the
deterministic encoder is byte-identical across runs. -/
theorem c4_archive_member_reproducible (env : Env) (d : Hasher) (path : List String)
    (content : List Nat) (mtime : Nat) (info : TargetInfo) (r : ProcessResult)
    (hinfo : TargetInfo.from_build_script_vars env = Except.ok info)
    (hr : process_file env d path content mtime = Except.ok r) :
    r.unique_name = process_file_unique_name d path mtime ∧
    r.steps = [Step.writeArchiveToStream
      [⟨r.object, r.unique_name ++ ".o", 0, 0, 0, 0o644⟩]
      info.archive_kind false false] ∧
    ∀ r2, process_file env d path content mtime = Except.ok r2 → r2 = r := by
  have hg := process_file_good env d path content mtime r hr
  have hmk := process_file_ok_mkResult env d path content mtime r hr
  subst hmk
  refine ⟨mkResult_unique_name env d path content mtime, ?_, ?_⟩
  · unfold goodEnv at hg
    split at hg
    · rename_i pp od info' hpp hod hinfo'
      obtain ⟨pre, post⟩ := pp
      have hii : info' = info := by
        rw [hinfo] at hinfo'
        exact (Except.ok.inj hinfo').symm
      subst hii
      unfold mkResult
      rw [hpp, hod, hinfo]
      rfl
    · exact absurd hg (by simp)
  · intro r2 h2
    exact process_file_ok_mkResult env d path content mtime r2 h2

/-- Witness for C4 on a concrete Linux environment and file. -/
theorem c4_archive_member_reproducible_witness :
    (mkResult linuxTestEnv testHasher ["b.bin"] [33] 2).unique_name =
      process_file_unique_name testHasher ["b.bin"] 2 ∧
    (mkResult linuxTestEnv testHasher ["b.bin"] [33] 2).steps =
      [Step.writeArchiveToStream
        [⟨(mkResult linuxTestEnv testHasher ["b.bin"] [33] 2).object,
          (mkResult linuxTestEnv testHasher ["b.bin"] [33] 2).unique_name ++ ".o",
          0, 0, 0, 0o644⟩]
        ArchiveKind.Gnu false false] ∧
    ∀ r2, process_file linuxTestEnv testHasher ["b.bin"] [33] 2 = Except.ok r2 →
      r2 = mkResult linuxTestEnv testHasher ["b.bin"] [33] 2 :=
  c4_archive_member_reproducible linuxTestEnv testHasher ["b.bin"] [33] 2
    ⟨BinaryFormat.Elf, Architecture.X86_64, Endianness.Little, ArchiveKind.Gnu⟩
    (mkResult linuxTestEnv testHasher ["b.bin"] [33] 2) rfl
    (process_file_eq linuxTestEnv testHasher ["b.bin"] [33] 2 rfl)

/-- C7: the compile-site reference operation succeeds on every existing
plain file with a reference whose byte-array length is exactly the
length of the file at expansion time, and fails fatally on every path
that does not resolve or resolves to anything but a plain file. -/
theorem c7_embed_reference (root : FsTree) (d : Hasher) (manifest_dir lit : List String) :
    (∀ content mtime,
      resolve (manifest_dir ++ lit) root = some (FsTree.file content mtime) →
      include_blob root d manifest_dir lit =
        Except.ok ⟨include_blob_unique_name d (manifest_dir ++ lit) mtime, content.length⟩) ∧
    (resolve (manifest_dir ++ lit) root = none →
      include_blob root d manifest_dir lit =
        Except.error (Error.couldNotFindFile (manifest_dir ++ lit))) ∧
    (∀ t, resolve (manifest_dir ++ lit) root = some t →
      (∀ content mtime, t ≠ FsTree.file content mtime) →
      include_blob root d manifest_dir lit =
        Except.error (Error.assertIsFileFailed (manifest_dir ++ lit))) := by
  refine ⟨?_, ?_, ?_⟩
  · intro content mtime h
    simp only [include_blob]
    rw [h]
  · intro h
    simp only [include_blob]
    rw [h]
  · intro t h hne
    simp only [include_blob]
    rw [h]
    cases t with
    | file _ _ => exact absurd rfl (hne _ _)
    | dir es => rfl
    | other => rfl

/-- Witness for C7: a plain file expands to its length, a missing path
fails, and a directory fails the plain-file assertion. -/
theorem c7_embed_reference_witness :
    include_blob testRoot testHasher [] ["b.bin"] =
      Except.ok ⟨include_blob_unique_name testHasher ["b.bin"] 2, 1⟩ ∧
    include_blob testRoot testHasher [] ["missing"] =
      Except.error (Error.couldNotFindFile ["missing"]) ∧
    include_blob testRoot testHasher [] ["sub"] =
      Except.error (Error.assertIsFileFailed ["sub"]) :=
  ⟨(c7_embed_reference testRoot testHasher [] ["b.bin"]).1 [33] 2 rfl,
   (c7_embed_reference testRoot testHasher [] ["missing"]).2.1 rfl,
   (c7_embed_reference testRoot testHasher [] ["sub"]).2.2
     (FsTree.dir (FsEntries.cons "a.bin" (FsTree.file [72, 105] 1) FsEntries.nil)) rfl
     (fun _ _ h => FsTree.noConfusion h)⟩

/-- C9: preprocessing a path that does not resolve fails fatally with an
io-class error before any archive is created: the result is the
canonicalization error together with an empty list of created archives,
so the output directory is unchanged. -/
theorem c9_nonexistent_input (root : FsTree) (env : Env) (d : Hasher)
    (path : List String) (hres : resolve path root = none) :
    make_includable_impl root env d path = ([], some (Error.couldNotFindFile path)) ∧
    (Error.couldNotFindFile path).isIOError = true := by
  constructor
  · unfold make_includable_impl
    rw [hres]
  · rfl

/-- Witness for C9 at a concrete missing path. -/
theorem c9_nonexistent_input_witness :
    make_includable_impl testRoot linuxTestEnv testHasher ["nope"] =
      ([], some (Error.couldNotFindFile ["nope"])) ∧
    (Error.couldNotFindFile ["nope"]).isIOError = true :=
  c9_nonexistent_input testRoot linuxTestEnv testHasher ["nope"] rfl

/-- C8: on an environment where the per-file pipeline succeeds,
preprocessing expands a resolved root recursively: when no encountered
entry has an unsupported type the pass reports no error and creates
exactly one archive per plain file in the subtree, and the archive
symbol tokens are pairwise distinct whenever the token function is
collision-free on the discovered (path, mtime) inputs; when some
encountered entry is neither a plain file nor a directory the pass
fails fatally with an unsupported-type error. -/
theorem c8_directory_expansion (env : Env) (d : Hasher) (root t : FsTree)
    (path : List String) (hres : resolve path root = some t)
    (hg : goodEnv env = true) :
    (hasOther t = false →
      (make_includable_impl root env d path).2 = none ∧
      (make_includable_impl root env d path).1.length = countFiles t ∧
      (((discovered path t).map fun f => process_file_unique_name d f.path f.mtime).Nodup →
        ((make_includable_impl root env d path).1.map ProcessResult.unique_name).Nodup)) ∧
    (hasOther t = true →
      ∃ p, (make_includable_impl root env d path).2 = some (Error.unsupportedFileType p)) := by
  have hmk : make_includable_impl root env d path = walk env d path t := by
    unfold make_includable_impl
    rw [hres]
  constructor
  · intro hno
    rw [hmk, walk_clean env d hg path t hno]
    refine ⟨rfl, ?_, ?_⟩
    · simp [discovered_length path t]
    · intro hnd
      simp only [List.map_map, Function.comp_def, mkResult_unique_name]
      exact hnd
  · intro hyes
    rw [hmk]
    exact walk_other env d hg path t hyes

/-- Witness for C8 on a directory of two nested plain files: no error,
two archives, distinct symbol tokens. -/
theorem c8_directory_expansion_witness :
    (make_includable_impl testRoot linuxTestEnv testHasher []).2 = none ∧
    (make_includable_impl testRoot linuxTestEnv testHasher []).1.length = countFiles testRoot ∧
    ((make_includable_impl testRoot linuxTestEnv testHasher []).1.map
      ProcessResult.unique_name).Nodup := by
  have h := (c8_directory_expansion linuxTestEnv testHasher testRoot testRoot [] rfl rfl).1
    (by decide)
  exact ⟨h.1, h.2.1, h.2.2 (by decide)⟩

end IncludeBlob
